import Mathlib

/-!
Shallow embedding of the core pipeline of `pkd_literature_search.py`
(class `PKDLiteratureSearch`): keyword matcher, retrying fetcher,
PubMed client, preprint client, deduplicator, categorizer and the
`search_all` coordinator.  Network effects are modelled by explicit
oracles (`Nat → Option _` per unit of work / attempt), time delays are
not modelled, and a Python exception escaping a function is modelled by
`Except`.  Strings are Lean strings; `str.lower`/`str.strip` are
modelled character-wise (ASCII case folding, whitespace trimming),
which agrees with Python on every input appearing in the claims.
-/

/-- The normalized record (the `metadata` / paper dicts built by the source
clients; keys `pmid`, `title`, `authors`, `journal`, `year`, `doi`, `source`). -/
structure Paper where
  pmid : String
  title : String
  authors : String
  journal : String
  year : String
  doi : String
  source : String
deriving DecidableEq

/-- Python `str.lower()` (character-wise case folding). -/
def strLower (s : String) : String := ⟨s.data.map Char.toLower⟩

/-- Python `str.strip()` (drop leading and trailing whitespace). -/
def strTrim (s : String) : String :=
  ⟨((s.data.dropWhile Char.isWhitespace).reverse.dropWhile Char.isWhitespace).reverse⟩

/-- Python `s[:n]` on strings. -/
def strTake (s : String) (n : Nat) : String := ⟨s.data.take n⟩

/-- Python `needle in haystack` on strings: contiguous substring test,
executed by scanning every suffix. -/
def containsSub (n : List Char) : List Char → Bool
  | [] => n.isPrefixOf []
  | b :: bs => n.isPrefixOf (b :: bs) || containsSub n bs

/-- Python `sep.join(names)` for lists of strings. -/
def joinSep (sep : String) : List String → String
  | [] => ""
  | [x] => x
  | x :: y :: xs => x ++ sep ++ joinSep sep (y :: xs)

/-- First whitespace-delimited token, i.e. Python `s.split()[0]`.
(When `s` is non-empty but all whitespace, `s.split()[0]` raises
`IndexError` inside the source's `try` block; no claim exercises that
path and it is modelled as the empty string here.) -/
def firstWsToken (s : String) : String :=
  ⟨(s.data.dropWhile Char.isWhitespace).takeWhile (fun c => !c.isWhitespace)⟩

/-! ## Keyword Matcher (`PKD_KEYWORDS`, `_is_pkd_relevant`) -/

def PKD_KEYWORDS : List String :=
  ["polycystic kidney",
   "polycystic kidney disease",
   "adpkd",
   "arpkd",
   "pkd1",
   "pkd2",
   "pkhd1",
   "autosomal dominant polycystic",
   "autosomal recessive polycystic",
   "kidney cyst",
   "renal cyst",
   "cystogenesis",
   "polycystin",
   "fibrocystin",
   "polyductin"]

/-- Matcher `_is_pkd_relevant`: lower-case the concatenation of title and abstract
and test whether any keyword occurs as a substring. -/
def _is_pkd_relevant (title : String) (abstract : String) : Bool :=
  PKD_KEYWORDS.any (fun kw => containsSub kw.data (strLower (title ++ " " ++ abstract)).data)

/-! ## Categorizer (`categorize_papers`) -/

inductive Category
  | genetics
  | therapeutics
  | metabolism
  | pathophysiology
  | clinical
  | cross_species
  | dataset
  | other
deriving DecidableEq

def geneticsKeywords : List String := ["genetic", "mutation", "variant", "sequencing", "gene"]

def therapeuticsKeywords : List String := ["drug", "therapeutic", "treatment", "inhibitor", "trial"]

def metabolismKeywords : List String := ["metabol", "mitochondr", "cholesterol", "amino acid"]

def crossSpeciesKeywords : List String := ["mouse", "mice", "rat", "model", "crispr"]

def datasetKeywords : List String := ["cohort", "registry", "dataset", "population"]

def pathophysiologyKeywords : List String := ["pathophysiology", "mechanism", "pathway"]

def clinicalKeywords : List String := ["patient", "clinical", "case"]

/-- Python `any(w in t for w in ws)`. -/
def containsAny (t : String) (ws : List String) : Bool :=
  ws.any (fun w => containsSub w.data t.data)

/-- The if/elif chain of `categorize_papers`, applied to one title. -/
def categoryOf (title : String) : Category :=
  if containsAny (strLower title) geneticsKeywords then .genetics
  else if containsAny (strLower title) therapeuticsKeywords then .therapeutics
  else if containsAny (strLower title) metabolismKeywords then .metabolism
  else if containsAny (strLower title) crossSpeciesKeywords then .cross_species
  else if containsAny (strLower title) datasetKeywords then .dataset
  else if containsAny (strLower title) pathophysiologyKeywords then .pathophysiology
  else if containsAny (strLower title) clinicalKeywords then .clinical
  else .other

/-- The eight bucket lists of the `categories` dictionary. -/
structure Categories where
  genetics : List Paper
  therapeutics : List Paper
  metabolism : List Paper
  pathophysiology : List Paper
  clinical : List Paper
  cross_species : List Paper
  dataset : List Paper
  other : List Paper
deriving DecidableEq

def emptyCategories : Categories := ⟨[], [], [], [], [], [], [], []⟩

def addToCategory (c : Category) (p : Paper) (cs : Categories) : Categories :=
  match c with
  | .genetics => { cs with genetics := p :: cs.genetics }
  | .therapeutics => { cs with therapeutics := p :: cs.therapeutics }
  | .metabolism => { cs with metabolism := p :: cs.metabolism }
  | .pathophysiology => { cs with pathophysiology := p :: cs.pathophysiology }
  | .clinical => { cs with clinical := p :: cs.clinical }
  | .cross_species => { cs with cross_species := p :: cs.cross_species }
  | .dataset => { cs with dataset := p :: cs.dataset }
  | .other => { cs with other := p :: cs.other }

/-- Function `categorize_papers`: one pass, each paper appended to the bucket of the
first matching keyword group (appending in iteration order is realized here
by consing the earlier paper onto the categorization of the rest). -/
def categorize_papers : List Paper → Categories
  | [] => emptyCategories
  | p :: ps => addToCategory (categoryOf p.title) p (categorize_papers ps)

def Categories.bucket (cs : Categories) : Category → List Paper
  | .genetics => cs.genetics
  | .therapeutics => cs.therapeutics
  | .metabolism => cs.metabolism
  | .pathophysiology => cs.pathophysiology
  | .clinical => cs.clinical
  | .cross_species => cs.cross_species
  | .dataset => cs.dataset
  | .other => cs.other

def Categories.totalSize (cs : Categories) : Nat :=
  cs.genetics.length + cs.therapeutics.length + cs.metabolism.length +
  cs.pathophysiology.length + cs.clinical.length + cs.cross_species.length +
  cs.dataset.length + cs.other.length

/-- The spec's description of the categorizer: an explicit ordered list of
(category, keyword group) pairs, scanned for the first match. -/
def priorityGroups : List (Category × List String) :=
  [(.genetics, geneticsKeywords),
   (.therapeutics, therapeuticsKeywords),
   (.metabolism, metabolismKeywords),
   (.cross_species, crossSpeciesKeywords),
   (.dataset, datasetKeywords),
   (.pathophysiology, pathophysiologyKeywords),
   (.clinical, clinicalKeywords)]

def firstMatchAux (t : String) : List (Category × List String) → Category
  | [] => .other
  | (c, ws) :: rest => if containsAny t ws then c else firstMatchAux t rest

/-- Stated from the spec's words (first group with a matching substring,
in the fixed priority order), to be compared with `categoryOf`. -/
def firstMatchCategory (title : String) : Category :=
  firstMatchAux (strLower title) priorityGroups

/-! ## Deduplicator (`_deduplicate_papers`) -/

def normDoi (p : Paper) : String := strLower (strTrim p.doi)

def normTitle (p : Paper) : String := strLower (strTrim p.title)

/-- The loop of `_deduplicate_papers`, with the two seen-sets made explicit
(set membership is list membership). -/
def dedupAux : List Paper → List String → List String → List Paper
  | [], _, _ => []
  | p :: ps, sd, st =>
    if normDoi p ≠ "" ∧ normDoi p ∈ sd then dedupAux ps sd st
    else if normTitle p ≠ "" ∧ normTitle p ∈ st then dedupAux ps sd st
    else
      p :: dedupAux ps (if normDoi p ≠ "" then normDoi p :: sd else sd)
        (if normTitle p ≠ "" then normTitle p :: st else st)

def _deduplicate_papers (ps : List Paper) : List Paper := dedupAux ps [] []

/-! ## Retrying fetcher

The `for attempt in range(3): try ... break except ...` loops in
`get_pubmed_metadata` and `_search_preprint_server`.  An attempt is an
oracle query `op a`; `none` models a raised transport/decoding error.
The second component counts the attempts actually made. -/

def retryAttempts (op : Nat → Option α) : Nat → Nat → Option α × Nat
  | _, 0 => (none, 0)
  | k, n + 1 =>
    match op k with
    | some v => (some v, 1)
    | none =>
      let r := retryAttempts op (k + 1) n
      (r.1, r.2 + 1)

/-- Up to `max_retries = 3` attempts, starting at attempt 0. -/
def retryFetch3 (op : Nat → Option α) : Option α × Nat := retryAttempts op 0 3

/-! ## PubMed source client (`get_pubmed_metadata`, `search_pubmed`) -/

/-- One entry of the esummary `result` dict: the fields the normalizer
reads (`title`, author `name`s, `source`, `pubdate`, and the
`articleids` list as (idtype, value) pairs). -/
structure PubmedArticle where
  title : String
  authors : List String
  source : String
  pubdate : String
  articleids : List (String × String)
deriving DecidableEq

/-- The `result` dict of one successful esummary response, as an
association list from pmid to article. -/
abbrev SummaryResult := List (String × PubmedArticle)

/-- First `articleids` entry with `idtype == "doi"`, else `""`. -/
def doiOfArticleIds (ids : List (String × String)) : String :=
  match ids.find? (fun aid => aid.1 == "doi") with
  | some aid => aid.2
  | none => ""

/-- The `metadata` dict built for one pmid of a successful batch. -/
def mkPubmedPaper (pmid : String) (art : PubmedArticle) : Paper :=
  { pmid := pmid,
    title := art.title,
    authors := joinSep ", " art.authors,
    journal := art.source,
    year := if art.pubdate ≠ "" then firstWsToken art.pubdate else "",
    doi := doiOfArticleIds art.articleids,
    source := "PubMed" }

/-- The `for pmid in batch: if pmid in summary_data["result"]` loop of a
successful batch. -/
def papersOfBatch (batch : List String) (res : SummaryResult) : List Paper :=
  batch.filterMap (fun pmid => (res.lookup pmid).map (mkPubmedPaper pmid))

/-- The batch loop of `get_pubmed_metadata`: `net i a` is the parsed
esummary response of attempt `a` for the batch at index `i` (`none` =
that attempt raised).  A batch that fails all attempts contributes
nothing; accumulation over batches is concatenation. -/
def processBatchesAux (net : Nat → Nat → Option SummaryResult) :
    List (List String) → Nat → List Paper
  | [], _ => []
  | b :: bs, i =>
    (match (retryFetch3 (net i)).1 with
     | none => []
     | some res => papersOfBatch b res) ++ processBatchesAux net bs (i + 1)

/-- Batching `pmids[i : i + bs]` of `range(0, len(pmids), batch_size)`;
fuel-driven (fuel = list length suffices for any positive batch size;
`batch_size = 0` would make Python's `range` raise and is never used). -/
def chunkAux (bs : Nat) : Nat → List α → List (List α)
  | _, [] => []
  | 0, _ :: _ => []
  | fuel + 1, l@(_ :: _) => l.take bs :: chunkAux bs fuel (l.drop bs)

def chunkBatches (bs : Nat) (l : List α) : List (List α) := chunkAux bs l.length l

/-- Function `get_pubmed_metadata` with `batch_size = 100`. -/
def get_pubmed_metadata (net : Nat → Nat → Option SummaryResult)
    (pmids : List String) : List Paper :=
  processBatchesAux net (chunkBatches 100 pmids) 0

/-- Function `search_pubmed`: the pmid list of the esearch response; any failure is
caught and returns `[]`. -/
def search_pubmed (resp : Option (List String)) : List String :=
  match resp with
  | some ids => ids
  | none => []

/-! ## Preprint source client (`_search_preprint_server`) -/

/-- One element of the `collection` array. -/
structure PreprintItem where
  title : String
  abstract : String
  doi : String
  authors : String
  date : String
deriving DecidableEq

/-- Element `messages[0]` as the code reads it: an empty dict is falsy
(`total_count = 0`); a non-empty dict without `total` yields `int(0)`;
a present `total` either converts to an integer or makes `int(...)`
raise `ValueError` (modelled by `totalVal none`). -/
inductive TotalMsg
  | emptyDict
  | missingTotal
  | totalVal (v : Option Int)
deriving DecidableEq

/-- A decoded page body: the `collection` array (an absent key is the
default `[]`) and the `messages` array (`none` = key absent, so the code's
default `[{}]` applies). -/
structure PageBody where
  collection : List PreprintItem
  messages : Option (List TotalMsg)
deriving DecidableEq

/-- Evaluation of `total_msg = data.get("messages", [{}])[0]` followed by
`int(total_msg.get("total", 0)) if total_msg else 0`.  Both the
`[0]` on an empty list (`IndexError`) and a non-integer `total`
(`ValueError`) raise outside any `try` block. -/
def evalTotal : Option (List TotalMsg) → Except Unit Int
  | none => .ok 0
  | some [] => .error ()
  | some (m :: _) =>
    match m with
    | .emptyDict => .ok 0
    | .missingTotal => .ok 0
    | .totalVal none => .error ()
    | .totalVal (some v) => .ok v

/-- The paper dict built for one surviving preprint item. -/
def mkPreprintPaper (server : String) (it : PreprintItem) : Paper :=
  { pmid := "",
    title := it.title,
    authors := it.authors,
    journal := server ++ " (preprint)",
    year := strTake it.date 4,
    doi := it.doi,
    source := server }

/-- The `for item in collection` loop: relevance filter, then the
in-source seen-DOI suppression (verbatim string comparison), then
normalization; papers are appended to `acc`, emitted non-empty DOIs are
recorded in `seen`. -/
def processItems (server : String) :
    List PreprintItem → List String → List Paper → List Paper × List String
  | [], seen, acc => (acc, seen)
  | it :: rest, seen, acc =>
    if _is_pkd_relevant it.title it.abstract then
      if it.doi ≠ "" ∧ it.doi ∈ seen then
        processItems server rest seen acc
      else
        processItems server rest (if it.doi ≠ "" then it.doi :: seen else seen)
          (acc ++ [mkPreprintPaper server it])
    else
      processItems server rest seen acc

/-- A preprint network oracle: `net cursor a` is the decoded body of
attempt `a` of the page at `cursor` (`none` = that attempt raised). -/
abbrev PreprintNet := Nat → Nat → Option PageBody

/-- The `while True` pagination loop of `_search_preprint_server`.
`fetched` records the cursors actually fetched; the outer `none` means
the fuel ran out before the loop exited (the Python loop would still be
running); `some (.error ())` means an exception escaped the function. -/
def searchPreprintAux (net : PreprintNet) (server : String) :
    Nat → Nat → List String → List Paper → List Nat →
    Option (Except Unit (List Paper × List Nat))
  | 0, _, _, _, _ => none
  | fuel + 1, cursor, seen, acc, fetched =>
    match (retryFetch3 (net cursor)).1 with
    | none => some (.ok (acc, fetched ++ [cursor]))
    | some body =>
      if body.collection = [] then some (.ok (acc, fetched ++ [cursor]))
      else
        let pr := processItems server body.collection seen acc
        match evalTotal body.messages with
        | .error e => some (.error e)
        | .ok total =>
          if total ≤ (cursor : Int) + 100 then
            some (.ok (pr.1, fetched ++ [cursor]))
          else
            searchPreprintAux net server fuel (cursor + 100) pr.2 pr.1
              (fetched ++ [cursor])

/-- Function `_search_preprint_server`: run the pagination loop from cursor 0 with
empty seen-DOI set and return the collected papers. -/
def _search_preprint_server (net : PreprintNet) (server : String) (fuel : Nat) :
    Option (Except Unit (List Paper)) :=
  (searchPreprintAux net server fuel 0 [] [] []).map (fun r => r.map (fun pr => pr.1))

/-! ## Search coordinator (`search_all`) -/

/-- The tuple returned by `search_all`. -/
structure SearchOutcome where
  all_papers : List Paper
  pubmed_papers : List Paper
  biorxiv_papers : List Paper
  medrxiv_papers : List Paper
  categories : Categories
deriving DecidableEq

/-- Coordinator `search_all`: PubMed search + metadata, both preprint servers,
concatenation in source order, deduplication, categorization. -/
def search_all (pubmedResp : Option (List String))
    (sumNet : Nat → Nat → Option SummaryResult)
    (bioNet medNet : PreprintNet) (fuel : Nat) :
    Option (Except Unit SearchOutcome) :=
  let pmids := search_pubmed pubmedResp
  let pubmed_papers := if pmids = [] then [] else get_pubmed_metadata sumNet pmids
  match _search_preprint_server bioNet "biorxiv" fuel with
  | none => none
  | some (.error e) => some (.error e)
  | some (.ok bio) =>
    match _search_preprint_server medNet "medrxiv" fuel with
    | none => none
    | some (.error e) => some (.error e)
    | some (.ok med) =>
      let allp := _deduplicate_papers (pubmed_papers ++ bio ++ med)
      some (.ok ⟨allp, pubmed_papers, bio, med, categorize_papers allp⟩)

/-! ## Substring test: correctness of the executable scan -/

theorem containsSub_iff (n h : List Char) : containsSub n h = true ↔ n <:+: h := by
  induction h with
  | nil =>
    simp [containsSub, List.isPrefixOf_iff_prefix]
  | cons b bs ih =>
    simp [containsSub, List.isPrefixOf_iff_prefix, ih, List.infix_cons_iff]

/-- Claim C9: the Keyword Matcher returns true exactly when some keyword of
the fixed list occurs as a substring of the lower-cased concatenation of
title and abstract; and the item titled "CRISPR mouse model of renal cyst
formation" with an empty abstract passes the matcher (matching "mouse" and
"renal cyst") and its title is categorized `cross_species`. -/
theorem is_pkd_relevant_spec :
    (∀ title abstract, _is_pkd_relevant title abstract = true ↔
      ∃ kw ∈ PKD_KEYWORDS, kw.data <:+: (strLower (title ++ " " ++ abstract)).data) ∧
    (_is_pkd_relevant "CRISPR mouse model of renal cyst formation" "" = true ∧
     containsSub "mouse".data
       (strLower ("CRISPR mouse model of renal cyst formation" ++ " " ++ "")).data = true ∧
     containsSub "renal cyst".data
       (strLower ("CRISPR mouse model of renal cyst formation" ++ " " ++ "")).data = true ∧
     categoryOf "CRISPR mouse model of renal cyst formation" = Category.cross_species) := by
  constructor
  · intro title abstract
    simp [_is_pkd_relevant, List.any_eq_true, containsSub_iff]
  · refine ⟨by decide, by decide, by decide, by decide⟩

theorem is_pkd_relevant_spec_witness :
    ∃ kw ∈ PKD_KEYWORDS,
      kw.data <:+:
        (strLower ("CRISPR mouse model of renal cyst formation" ++ " " ++ "")).data :=
  (is_pkd_relevant_spec.1 "CRISPR mouse model of renal cyst formation" "").mp (by decide)

/-! ## Categorizer lemmas -/

/-- Claim C2: the categorizer tests the lower-cased title against the keyword
groups in the fixed priority order (genetics, therapeutics, metabolism,
cross_species, dataset, pathophysiology, clinical) and assigns the first
matching group's category; a title containing both a genetics keyword and a
clinical keyword is assigned genetics, never clinical. -/
theorem categorize_priority_spec :
    (∀ title, categoryOf title = firstMatchCategory title) ∧
    (∀ title, containsAny (strLower title) geneticsKeywords = true →
      containsAny (strLower title) clinicalKeywords = true →
      categoryOf title = Category.genetics ∧ categoryOf title ≠ Category.clinical) := by
  constructor
  · intro title
    rfl
  · intro title hg _
    simp [categoryOf, hg]

theorem categorize_priority_spec_witness :
    categoryOf "Mutation carriers: a patient study" = Category.genetics ∧
    categoryOf "Mutation carriers: a patient study" ≠ Category.clinical :=
  categorize_priority_spec.2 "Mutation carriers: a patient study" (by decide) (by decide)

theorem bucket_addToCategory (c' c : Category) (p : Paper) (cs : Categories) :
    (addToCategory c' p cs).bucket c =
      if c' = c then p :: cs.bucket c else cs.bucket c := by
  cases c' <;> cases c <;> simp [addToCategory, Categories.bucket]

theorem bucket_categorize (ps : List Paper) (c : Category) :
    (categorize_papers ps).bucket c =
      ps.filter (fun p => decide (categoryOf p.title = c)) := by
  induction ps with
  | nil => cases c <;> rfl
  | cons p ps ih =>
    simp only [categorize_papers, bucket_addToCategory, List.filter_cons, ih]
    by_cases h : categoryOf p.title = c <;> simp [h]

theorem totalSize_addToCategory (c' : Category) (p : Paper) (cs : Categories) :
    (addToCategory c' p cs).totalSize = cs.totalSize + 1 := by
  cases c' <;> simp [addToCategory, Categories.totalSize] <;> omega

/-- Claim C3: the categorizer partitions its input into the eight fixed
buckets: the bucket sizes sum to the input length, and every input paper
lies in exactly one bucket. -/
theorem categorize_papers_partition (ps : List Paper) :
    (categorize_papers ps).totalSize = ps.length ∧
    ∀ p ∈ ps, ∃! c : Category, p ∈ (categorize_papers ps).bucket c := by
  constructor
  · induction ps with
    | nil => rfl
    | cons p ps ih => simp [categorize_papers, totalSize_addToCategory, ih]
  · intro p hp
    refine ⟨categoryOf p.title, ?_, ?_⟩
    · show p ∈ (categorize_papers ps).bucket (categoryOf p.title)
      rw [bucket_categorize]
      exact List.mem_filter.mpr ⟨hp, by simp⟩
    · intro c hc
      rw [bucket_categorize] at hc
      have := (List.mem_filter.mp hc).2
      simp at this
      exact this.symm

theorem categorize_papers_partition_witness :
    ∃! c : Category,
      Paper.mk "" "PKD1 mutation study" "" "" "" "" "PubMed" ∈
        (categorize_papers [Paper.mk "" "PKD1 mutation study" "" "" "" "" "PubMed"]).bucket c :=
  (categorize_papers_partition [Paper.mk "" "PKD1 mutation study" "" "" "" "" "PubMed"]).2
    (Paper.mk "" "PKD1 mutation study" "" "" "" "" "PubMed") (by simp)

/-! ## Deduplicator lemmas -/

theorem dedupAux_cons_skip_doi (p : Paper) (ps : List Paper) (sd st : List String)
    (h : normDoi p ≠ "" ∧ normDoi p ∈ sd) :
    dedupAux (p :: ps) sd st = dedupAux ps sd st := by
  simp only [dedupAux]
  rw [if_pos h]

theorem dedupAux_cons_skip_title (p : Paper) (ps : List Paper) (sd st : List String)
    (h1 : ¬(normDoi p ≠ "" ∧ normDoi p ∈ sd)) (h2 : normTitle p ≠ "" ∧ normTitle p ∈ st) :
    dedupAux (p :: ps) sd st = dedupAux ps sd st := by
  simp only [dedupAux]
  rw [if_neg h1, if_pos h2]

theorem dedupAux_cons_emit (p : Paper) (ps : List Paper) (sd st : List String)
    (h1 : ¬(normDoi p ≠ "" ∧ normDoi p ∈ sd)) (h2 : ¬(normTitle p ≠ "" ∧ normTitle p ∈ st)) :
    dedupAux (p :: ps) sd st =
      p :: dedupAux ps (if normDoi p ≠ "" then normDoi p :: sd else sd)
        (if normTitle p ≠ "" then normTitle p :: st else st) := by
  simp only [dedupAux]
  rw [if_neg h1, if_neg h2]

theorem dedupAux_sublist (ps : List Paper) :
    ∀ sd st, List.Sublist (dedupAux ps sd st) ps := by
  induction ps with
  | nil => intro sd st; simp [dedupAux]
  | cons p ps ih =>
    intro sd st
    by_cases h1 : normDoi p ≠ "" ∧ normDoi p ∈ sd
    · rw [dedupAux_cons_skip_doi p ps sd st h1]
      exact List.Sublist.cons p (ih sd st)
    · by_cases h2 : normTitle p ≠ "" ∧ normTitle p ∈ st
      · rw [dedupAux_cons_skip_title p ps sd st h1 h2]
        exact List.Sublist.cons p (ih sd st)
      · rw [dedupAux_cons_emit p ps sd st h1 h2]
        exact List.Sublist.cons₂ p (ih _ _)

theorem dedupAux_doi_not_seen (ps : List Paper) :
    ∀ (sd st : List String) (q : Paper),
      q ∈ dedupAux ps sd st → normDoi q ≠ "" → normDoi q ∉ sd := by
  induction ps with
  | nil => intro sd st q hq; simp [dedupAux] at hq
  | cons p ps ih =>
    intro sd st q hq hne
    by_cases h1 : normDoi p ≠ "" ∧ normDoi p ∈ sd
    · rw [dedupAux_cons_skip_doi p ps sd st h1] at hq
      exact ih sd st q hq hne
    · by_cases h2 : normTitle p ≠ "" ∧ normTitle p ∈ st
      · rw [dedupAux_cons_skip_title p ps sd st h1 h2] at hq
        exact ih sd st q hq hne
      · rw [dedupAux_cons_emit p ps sd st h1 h2] at hq
        rcases List.mem_cons.mp hq with rfl | hq'
        · intro hmem; exact h1 ⟨hne, hmem⟩
        · intro hmem
          apply ih _ _ q hq' hne
          by_cases hd : normDoi p ≠ ""
          · rw [if_pos hd]; exact List.mem_cons_of_mem _ hmem
          · rw [if_neg hd]; exact hmem

theorem dedupAux_title_not_seen (ps : List Paper) :
    ∀ (sd st : List String) (q : Paper),
      q ∈ dedupAux ps sd st → normTitle q ≠ "" → normTitle q ∉ st := by
  induction ps with
  | nil => intro sd st q hq; simp [dedupAux] at hq
  | cons p ps ih =>
    intro sd st q hq hne
    by_cases h1 : normDoi p ≠ "" ∧ normDoi p ∈ sd
    · rw [dedupAux_cons_skip_doi p ps sd st h1] at hq
      exact ih sd st q hq hne
    · by_cases h2 : normTitle p ≠ "" ∧ normTitle p ∈ st
      · rw [dedupAux_cons_skip_title p ps sd st h1 h2] at hq
        exact ih sd st q hq hne
      · rw [dedupAux_cons_emit p ps sd st h1 h2] at hq
        rcases List.mem_cons.mp hq with rfl | hq'
        · intro hmem; exact h2 ⟨hne, hmem⟩
        · intro hmem
          apply ih _ _ q hq' hne
          by_cases ht : normTitle p ≠ ""
          · rw [if_pos ht]; exact List.mem_cons_of_mem _ hmem
          · rw [if_neg ht]; exact hmem

theorem dedupAux_pairwise_doi (ps : List Paper) :
    ∀ (sd st : List String),
      (dedupAux ps sd st).Pairwise (fun a b => normDoi a ≠ "" → normDoi a ≠ normDoi b) := by
  induction ps with
  | nil => intro sd st; simp [dedupAux]
  | cons p ps ih =>
    intro sd st
    by_cases h1 : normDoi p ≠ "" ∧ normDoi p ∈ sd
    · rw [dedupAux_cons_skip_doi p ps sd st h1]; exact ih sd st
    · by_cases h2 : normTitle p ≠ "" ∧ normTitle p ∈ st
      · rw [dedupAux_cons_skip_title p ps sd st h1 h2]; exact ih sd st
      · rw [dedupAux_cons_emit p ps sd st h1 h2]
        refine List.Pairwise.cons ?_ (ih _ _)
        intro b hb hpne
        by_cases hbe : normDoi b = ""
        · rw [hbe]; exact hpne
        · have hnotin := dedupAux_doi_not_seen ps _ _ b hb hbe
          rw [if_pos hpne] at hnotin
          intro heq
          exact hnotin (heq ▸ List.mem_cons_self _ _)

theorem dedupAux_pairwise_title (ps : List Paper) :
    ∀ (sd st : List String),
      (dedupAux ps sd st).Pairwise (fun a b => normTitle a ≠ "" → normTitle a ≠ normTitle b) := by
  induction ps with
  | nil => intro sd st; simp [dedupAux]
  | cons p ps ih =>
    intro sd st
    by_cases h1 : normDoi p ≠ "" ∧ normDoi p ∈ sd
    · rw [dedupAux_cons_skip_doi p ps sd st h1]; exact ih sd st
    · by_cases h2 : normTitle p ≠ "" ∧ normTitle p ∈ st
      · rw [dedupAux_cons_skip_title p ps sd st h1 h2]; exact ih sd st
      · rw [dedupAux_cons_emit p ps sd st h1 h2]
        refine List.Pairwise.cons ?_ (ih _ _)
        intro b hb hpne
        by_cases hbe : normTitle b = ""
        · rw [hbe]; exact hpne
        · have hnotin := dedupAux_title_not_seen ps _ _ b hb hbe
          rw [if_pos hpne] at hnotin
          intro heq
          exact hnotin (heq ▸ List.mem_cons_self _ _)

theorem dedupAux_count_keyless (q : Paper) (hdq : normDoi q = "") (htq : normTitle q = "")
    (ps : List Paper) :
    ∀ (sd st : List String), (dedupAux ps sd st).count q = ps.count q := by
  induction ps with
  | nil => intro sd st; rfl
  | cons p ps ih =>
    intro sd st
    by_cases h1 : normDoi p ≠ "" ∧ normDoi p ∈ sd
    · have hpq : p ≠ q := fun h => h1.1 (h ▸ hdq)
      rw [dedupAux_cons_skip_doi p ps sd st h1]
      simp [List.count_cons, hpq, ih sd st]
    · by_cases h2 : normTitle p ≠ "" ∧ normTitle p ∈ st
      · have hpq : p ≠ q := fun h => h2.1 (h ▸ htq)
        rw [dedupAux_cons_skip_title p ps sd st h1 h2]
        simp [List.count_cons, hpq, ih sd st]
      · rw [dedupAux_cons_emit p ps sd st h1 h2]
        simp [List.count_cons, ih]

/-- Claim C1: the deduplicator's output is a subsequence of its input (so
first-seen order is preserved), no two output papers share a non-empty
normalized DOI, no two share a non-empty normalized title, and papers whose
normalized DOI and title are both empty are always emitted (their
multiplicity is preserved). -/
theorem deduplicate_papers_spec (ps : List Paper) :
    List.Sublist (_deduplicate_papers ps) ps ∧
    (_deduplicate_papers ps).Pairwise (fun a b => normDoi a ≠ "" → normDoi a ≠ normDoi b) ∧
    (_deduplicate_papers ps).Pairwise (fun a b => normTitle a ≠ "" → normTitle a ≠ normTitle b) ∧
    ∀ q : Paper, normDoi q = "" → normTitle q = "" →
      (_deduplicate_papers ps).count q = ps.count q :=
  ⟨dedupAux_sublist ps [] [], dedupAux_pairwise_doi ps [] [], dedupAux_pairwise_title ps [] [],
   fun q hd ht => dedupAux_count_keyless q hd ht ps [] []⟩

theorem deduplicate_papers_spec_witness :
    (_deduplicate_papers [Paper.mk "" "" "" "" "" "" "", Paper.mk "" "" "" "" "" "" ""]).count
        (Paper.mk "" "" "" "" "" "" "") =
      [Paper.mk "" "" "" "" "" "" "", Paper.mk "" "" "" "" "" "" ""].count
        (Paper.mk "" "" "" "" "" "" "") :=
  (deduplicate_papers_spec [Paper.mk "" "" "" "" "" "" "", Paper.mk "" "" "" "" "" "" ""]).2.2.2
    (Paper.mk "" "" "" "" "" "" "") (by decide) (by decide)

theorem dedupAux_idem (ps : List Paper) :
    ∀ (sd st : List String), dedupAux (dedupAux ps sd st) sd st = dedupAux ps sd st := by
  induction ps with
  | nil => intro sd st; simp [dedupAux]
  | cons p ps ih =>
    intro sd st
    by_cases h1 : normDoi p ≠ "" ∧ normDoi p ∈ sd
    · rw [dedupAux_cons_skip_doi p ps sd st h1]; exact ih sd st
    · by_cases h2 : normTitle p ≠ "" ∧ normTitle p ∈ st
      · rw [dedupAux_cons_skip_title p ps sd st h1 h2]; exact ih sd st
      · rw [dedupAux_cons_emit p ps sd st h1 h2]
        rw [dedupAux_cons_emit p _ sd st h1 h2]
        rw [ih _ _]

/-- Claim C7: the deduplicator is idempotent: applied to its own output it
returns that output unchanged. -/
theorem deduplicate_papers_idempotent (ps : List Paper) :
    _deduplicate_papers (_deduplicate_papers ps) = _deduplicate_papers ps :=
  dedupAux_idem ps [] []

/-! ## Retry lemmas -/

theorem retryAttempts_all_none (op : Nat → Option α) (h : ∀ j, op j = none) :
    ∀ (n k : Nat), retryAttempts op k n = (none, n) := by
  intro n
  induction n with
  | zero => intro k; rfl
  | succ n ih => intro k; simp [retryAttempts, h k, ih (k + 1)]

theorem retryAttempts_fst_some (op : Nat → Option α) :
    ∀ (n k : Nat) (v : α), (retryAttempts op k n).1 = some v → ∃ j, op j = some v := by
  intro n
  induction n with
  | zero => intro k v h; simp [retryAttempts] at h
  | succ n ih =>
    intro k v h
    cases hk : op k with
    | some w =>
      simp only [retryAttempts, hk] at h
      exact ⟨k, by rw [hk, h]⟩
    | none =>
      simp only [retryAttempts, hk] at h
      exact ih (k + 1) v h

theorem retryFetch3_fst_some (op : Nat → Option α) (v : α)
    (h : (retryFetch3 op).1 = some v) : ∃ j, op j = some v :=
  retryAttempts_fst_some op 3 0 v h

theorem retryFetch3_first_attempt (op : Nat → Option α) (v : α) (h : op 0 = some v) :
    (retryFetch3 op).1 = some v := by
  simp [retryFetch3, retryAttempts, h]

theorem processBatchesAux_append (net : Nat → Nat → Option SummaryResult) :
    ∀ (bs1 bs2 : List (List String)) (i : Nat),
      processBatchesAux net (bs1 ++ bs2) i =
        processBatchesAux net bs1 i ++ processBatchesAux net bs2 (i + bs1.length) := by
  intro bs1
  induction bs1 with
  | nil => intro bs2 i; simp [processBatchesAux]
  | cons b bs ih =>
    intro bs2 i
    have harith : i + 1 + bs.length = i + (bs.length + 1) := by omega
    simp only [List.cons_append, processBatchesAux, List.append_eq, List.length_cons]
    rw [ih bs2 (i + 1), harith, List.append_assoc]

/-- Claim C4: the retry engine makes exactly 3 attempts for a unit of work
whose every attempt fails and yields no value instead of raising; a PubMed
metadata batch whose attempts all fail contributes nothing while every other
batch's papers are kept; a preprint page whose attempts all fail makes the
pagination loop return the already accumulated papers. -/
theorem retry_bound_spec :
    (∀ (α : Type) (op : Nat → Option α),
      op 0 = none → op 1 = none → op 2 = none → retryFetch3 op = (none, 3)) ∧
    (∀ (net : Nat → Nat → Option SummaryResult) (bs1 bs2 : List (List String))
        (b : List String),
      (∀ a, net bs1.length a = none) →
      processBatchesAux net (bs1 ++ b :: bs2) 0 =
        processBatchesAux net bs1 0 ++ processBatchesAux net bs2 (bs1.length + 1)) ∧
    (∀ (net : PreprintNet) (server : String) (fuel cursor : Nat) (seen : List String)
        (acc : List Paper) (fetched : List Nat),
      (∀ a, net cursor a = none) →
      searchPreprintAux net server (fuel + 1) cursor seen acc fetched =
        some (Except.ok (acc, fetched ++ [cursor]))) := by
  refine ⟨?_, ?_, ?_⟩
  · intro α op h0 h1 h2
    simp [retryFetch3, retryAttempts, h0, h1, h2]
  · intro net bs1 bs2 b hfail
    rw [processBatchesAux_append net bs1 (b :: bs2) 0]
    have hnone : (retryFetch3 (net bs1.length)).1 = none := by
      rw [retryFetch3, retryAttempts_all_none (net bs1.length) hfail 3 0]
    simp [processBatchesAux, hnone]
  · intro net server fuel cursor seen acc fetched hfail
    have hnone : (retryFetch3 (net cursor)).1 = none := by
      rw [retryFetch3, retryAttempts_all_none (net cursor) hfail 3 0]
    simp [searchPreprintAux, hnone]

theorem retry_bound_spec_witness :
    retryFetch3 (fun _ => (none : Option Nat)) = (none, 3) ∧
    searchPreprintAux (fun _ _ => none) "biorxiv" 1 0 [] [] [] =
      some (Except.ok ([], [0])) := by
  constructor
  · exact retry_bound_spec.1 Nat (fun _ => none) rfl rfl rfl
  · have h := retry_bound_spec.2.2 (fun _ _ => none) "biorxiv" 0 0 [] [] []
      (fun _ => rfl)
    simpa using h

/-! ## Preprint pagination lemmas -/

theorem searchPreprintAux_fail_step (net : PreprintNet) (server : String)
    (fuel cursor : Nat) (seen : List String) (acc : List Paper) (fetched : List Nat)
    (h : (retryFetch3 (net cursor)).1 = none) :
    searchPreprintAux net server (fuel + 1) cursor seen acc fetched =
      some (Except.ok (acc, fetched ++ [cursor])) := by
  simp [searchPreprintAux, h]

theorem searchPreprintAux_empty_step (net : PreprintNet) (server : String)
    (fuel cursor : Nat) (seen : List String) (acc : List Paper) (fetched : List Nat)
    (body : PageBody) (hb : (retryFetch3 (net cursor)).1 = some body)
    (hc : body.collection = []) :
    searchPreprintAux net server (fuel + 1) cursor seen acc fetched =
      some (Except.ok (acc, fetched ++ [cursor])) := by
  simp [searchPreprintAux, hb, hc]

theorem searchPreprintAux_error_step (net : PreprintNet) (server : String)
    (fuel cursor : Nat) (seen : List String) (acc : List Paper) (fetched : List Nat)
    (body : PageBody) (hb : (retryFetch3 (net cursor)).1 = some body)
    (hc : body.collection ≠ []) (ht : evalTotal body.messages = Except.error ()) :
    searchPreprintAux net server (fuel + 1) cursor seen acc fetched =
      some (Except.error ()) := by
  simp [searchPreprintAux, hb, hc, ht]

theorem searchPreprintAux_halt_step (net : PreprintNet) (server : String)
    (fuel cursor : Nat) (seen : List String) (acc : List Paper) (fetched : List Nat)
    (body : PageBody) (total : Int) (hb : (retryFetch3 (net cursor)).1 = some body)
    (hc : body.collection ≠ []) (ht : evalTotal body.messages = Except.ok total)
    (hstop : total ≤ (cursor : Int) + 100) :
    searchPreprintAux net server (fuel + 1) cursor seen acc fetched =
      some (Except.ok ((processItems server body.collection seen acc).1,
        fetched ++ [cursor])) := by
  simp [searchPreprintAux, hb, hc, ht, hstop]

theorem searchPreprintAux_continue_step (net : PreprintNet) (server : String)
    (fuel cursor : Nat) (seen : List String) (acc : List Paper) (fetched : List Nat)
    (body : PageBody) (total : Int) (hb : (retryFetch3 (net cursor)).1 = some body)
    (hc : body.collection ≠ []) (ht : evalTotal body.messages = Except.ok total)
    (hgo : ¬ total ≤ (cursor : Int) + 100) :
    searchPreprintAux net server (fuel + 1) cursor seen acc fetched =
      searchPreprintAux net server fuel (cursor + 100)
        (processItems server body.collection seen acc).2
        (processItems server body.collection seen acc).1 (fetched ++ [cursor]) := by
  simp [searchPreprintAux, hb, hc, ht, hgo]

/-- Every total a successfully decoded page ever reports is at most `B`. -/
def BoundedNet (net : PreprintNet) (B : Nat) : Prop :=
  ∀ c a b, net c a = some b → ∀ t, evalTotal b.messages = Except.ok t → t ≤ (B : Int)

/-- No successfully decoded page makes the pagination-metadata read raise. -/
def WFNet (net : PreprintNet) : Prop :=
  ∀ c a b, net c a = some b → evalTotal b.messages ≠ Except.error ()

theorem searchPreprintAux_ne_none (net : PreprintNet) (server : String) (B : Nat)
    (hB : BoundedNet net B) :
    ∀ (fuel cursor : Nat) (seen : List String) (acc : List Paper) (fetched : List Nat),
      (B : Int) ≤ (cursor : Int) + 100 * (fuel : Int) →
      searchPreprintAux net server (fuel + 1) cursor seen acc fetched ≠ none := by
  intro fuel
  induction fuel with
  | zero =>
    intro cursor seen acc fetched hle
    cases hr : (retryFetch3 (net cursor)).1 with
    | none => rw [searchPreprintAux_fail_step net server 0 cursor seen acc fetched hr]; simp
    | some body =>
      by_cases hc : body.collection = []
      · rw [searchPreprintAux_empty_step net server 0 cursor seen acc fetched body hr hc]
        simp
      · cases ht : evalTotal body.messages with
        | error e =>
          cases e
          rw [searchPreprintAux_error_step net server 0 cursor seen acc fetched body hr hc ht]
          simp
        | ok total =>
          obtain ⟨a, ha⟩ := retryFetch3_fst_some (net cursor) body hr
          have htB : total ≤ (B : Int) := hB cursor a body ha total ht
          have hstop : total ≤ (cursor : Int) + 100 := by
            simp at hle
            omega
          rw [searchPreprintAux_halt_step net server 0 cursor seen acc fetched body total
            hr hc ht hstop]
          simp
  | succ f ih =>
    intro cursor seen acc fetched hle
    cases hr : (retryFetch3 (net cursor)).1 with
    | none =>
      rw [searchPreprintAux_fail_step net server (f + 1) cursor seen acc fetched hr]; simp
    | some body =>
      by_cases hc : body.collection = []
      · rw [searchPreprintAux_empty_step net server (f + 1) cursor seen acc fetched body hr hc]
        simp
      · cases ht : evalTotal body.messages with
        | error e =>
          cases e
          rw [searchPreprintAux_error_step net server (f + 1) cursor seen acc fetched
            body hr hc ht]
          simp
        | ok total =>
          by_cases hstop : total ≤ (cursor : Int) + 100
          · rw [searchPreprintAux_halt_step net server (f + 1) cursor seen acc fetched
              body total hr hc ht hstop]
            simp
          · rw [searchPreprintAux_continue_step net server (f + 1) cursor seen acc fetched
              body total hr hc ht hstop]
            apply ih
            obtain ⟨a, ha⟩ := retryFetch3_fst_some (net cursor) body hr
            have htB : total ≤ (B : Int) := hB cursor a body ha total ht
            push_cast
            push_cast at hle
            omega

theorem searchPreprintAux_ne_error (net : PreprintNet) (server : String) (hW : WFNet net) :
    ∀ (fuel cursor : Nat) (seen : List String) (acc : List Paper) (fetched : List Nat),
      searchPreprintAux net server fuel cursor seen acc fetched ≠
        some (Except.error ()) := by
  intro fuel
  induction fuel with
  | zero => intro cursor seen acc fetched; simp [searchPreprintAux]
  | succ f ih =>
    intro cursor seen acc fetched
    cases hr : (retryFetch3 (net cursor)).1 with
    | none =>
      rw [searchPreprintAux_fail_step net server f cursor seen acc fetched hr]; simp
    | some body =>
      by_cases hc : body.collection = []
      · rw [searchPreprintAux_empty_step net server f cursor seen acc fetched body hr hc]
        simp
      · cases ht : evalTotal body.messages with
        | error e =>
          cases e
          obtain ⟨a, ha⟩ := retryFetch3_fst_some (net cursor) body hr
          exact absurd ht (hW cursor a body ha)
        | ok total =>
          by_cases hstop : total ≤ (cursor : Int) + 100
          · rw [searchPreprintAux_halt_step net server f cursor seen acc fetched body total
              hr hc ht hstop]
            simp
          · rw [searchPreprintAux_continue_step net server f cursor seen acc fetched body total
              hr hc ht hstop]
            exact ih _ _ _ _

/-- Claim C6: pagination starts at cursor 0 and advances by the page size
100; with every reported total bounded by `B` the loop terminates (fuel
`B + 1` never runs out); it halts exactly when the advanced cursor reaches
or exceeds the reported total (and otherwise recurses at cursor + 100); and
when every page reports total 250 with a non-empty collection, exactly 3
pages are fetched, at cursors 0, 100 and 200. -/
theorem preprint_pagination_spec :
    (∀ (net : PreprintNet) (server : String) (B : Nat), BoundedNet net B →
      searchPreprintAux net server (B + 1) 0 [] [] [] ≠ none) ∧
    (∀ (net : PreprintNet) (server : String) (fuel cursor : Nat) (seen : List String)
        (acc : List Paper) (fetched : List Nat) (body : PageBody) (total : Int),
      (retryFetch3 (net cursor)).1 = some body → body.collection ≠ [] →
      evalTotal body.messages = Except.ok total → total ≤ (cursor : Int) + 100 →
      searchPreprintAux net server (fuel + 1) cursor seen acc fetched =
        some (Except.ok ((processItems server body.collection seen acc).1,
          fetched ++ [cursor]))) ∧
    (∀ (net : PreprintNet) (server : String) (fuel cursor : Nat) (seen : List String)
        (acc : List Paper) (fetched : List Nat) (body : PageBody) (total : Int),
      (retryFetch3 (net cursor)).1 = some body → body.collection ≠ [] →
      evalTotal body.messages = Except.ok total → ¬ total ≤ (cursor : Int) + 100 →
      searchPreprintAux net server (fuel + 1) cursor seen acc fetched =
        searchPreprintAux net server fuel (cursor + 100)
          (processItems server body.collection seen acc).2
          (processItems server body.collection seen acc).1 (fetched ++ [cursor])) ∧
    (∀ (net : PreprintNet) (server : String),
      (∀ c a, ∃ body, net c a = some body ∧ body.collection ≠ [] ∧
        evalTotal body.messages = Except.ok 250) →
      ∀ fuel, ∃ ps, searchPreprintAux net server (fuel + 3) 0 [] [] [] =
        some (Except.ok (ps, [0, 100, 200]))) := by
  refine ⟨?_, ?_, ?_, ?_⟩
  · intro net server B hB
    exact searchPreprintAux_ne_none net server B hB B 0 [] [] [] (by push_cast; omega)
  · intro net server fuel cursor seen acc fetched body total hb hc ht hstop
    exact searchPreprintAux_halt_step net server fuel cursor seen acc fetched body total
      hb hc ht hstop
  · intro net server fuel cursor seen acc fetched body total hb hc ht hgo
    exact searchPreprintAux_continue_step net server fuel cursor seen acc fetched body total
      hb hc ht hgo
  · intro net server hnet fuel
    obtain ⟨b0, hb0, hc0, ht0⟩ := hnet 0 0
    obtain ⟨b1, hb1, hc1, ht1⟩ := hnet 100 0
    obtain ⟨b2, hb2, hc2, ht2⟩ := hnet 200 0
    rw [searchPreprintAux_continue_step net server (fuel + 2) 0 [] [] [] b0 250
      (retryFetch3_first_attempt (net 0) b0 hb0) hc0 ht0 (by norm_num)]
    norm_num
    rw [searchPreprintAux_continue_step net server (fuel + 1) 100 _ _ _ b1 250
      (retryFetch3_first_attempt (net 100) b1 hb1) hc1 ht1 (by norm_num)]
    norm_num
    rw [searchPreprintAux_halt_step net server fuel 200 _ _ _ b2 250
      (retryFetch3_first_attempt (net 200) b2 hb2) hc2 ht2 (by norm_num)]
    exact ⟨_, rfl⟩

def pageItemX : PreprintItem := ⟨"x", "", "", "", ""⟩

def body250 : PageBody := ⟨[pageItemX], some [TotalMsg.totalVal (some 250)]⟩

def constNet250 : PreprintNet := fun _ _ => some body250

theorem preprint_pagination_spec_witness :
    ∃ ps, searchPreprintAux constNet250 "biorxiv" 3 0 [] [] [] =
      some (Except.ok (ps, [0, 100, 200])) := by
  have h := preprint_pagination_spec.2.2.2 constNet250 "biorxiv"
    (fun c a => ⟨body250, rfl, by decide, rfl⟩) 0
  simpa using h

/-! ## Coordinator lemmas -/

theorem searchPreprint_ok (net : PreprintNet) (server : String) (B : Nat)
    (hW : WFNet net) (hB : BoundedNet net B) :
    ∃ papers, _search_preprint_server net server (B + 1) = some (Except.ok papers) := by
  have h1 := searchPreprintAux_ne_none net server B hB B 0 [] [] [] (by push_cast; omega)
  have h2 := searchPreprintAux_ne_error net server hW (B + 1) 0 [] [] []
  cases hx : searchPreprintAux net server (B + 1) 0 [] [] [] with
  | none => exact absurd hx h1
  | some r =>
    cases r with
    | error e => cases e; exact absurd hx h2
    | ok pr => exact ⟨pr.1, by simp [_search_preprint_server, hx, Except.map]⟩

/-- Claim C5, amended: for transport failures, non-2xx statuses and bodies
that fail to decode (all modelled as failed attempts) nothing propagates;
but a successfully decoded preprint page whose pagination metadata is
malformed (`messages` equal to the empty list, or a non-integer `total`)
raises out of the preprint client (see the counterexample).  Under the
amended hypothesis that every decoded body has well-formed metadata with
totals bounded by `B`, both preprint clients return ok and `search_all`
returns a result tuple. -/
theorem search_all_no_raise_amended (pubmedResp : Option (List String))
    (sumNet : Nat → Nat → Option SummaryResult) (bioNet medNet : PreprintNet) (B : Nat)
    (hbw : WFNet bioNet) (hbB : BoundedNet bioNet B)
    (hmw : WFNet medNet) (hmB : BoundedNet medNet B) :
    (∃ bp, _search_preprint_server bioNet "biorxiv" (B + 1) = some (Except.ok bp)) ∧
    (∃ mp, _search_preprint_server medNet "medrxiv" (B + 1) = some (Except.ok mp)) ∧
    (∃ r, search_all pubmedResp sumNet bioNet medNet (B + 1) = some (Except.ok r)) := by
  obtain ⟨bp, hbp⟩ := searchPreprint_ok bioNet "biorxiv" B hbw hbB
  obtain ⟨mp, hmp⟩ := searchPreprint_ok medNet "medrxiv" B hmw hmB
  refine ⟨⟨bp, hbp⟩, ⟨mp, hmp⟩, ?_⟩
  refine ⟨⟨_deduplicate_papers ((if search_pubmed pubmedResp = [] then [] else
      get_pubmed_metadata sumNet (search_pubmed pubmedResp)) ++ bp ++ mp),
    (if search_pubmed pubmedResp = [] then [] else
      get_pubmed_metadata sumNet (search_pubmed pubmedResp)), bp, mp,
    categorize_papers (_deduplicate_papers ((if search_pubmed pubmedResp = [] then [] else
      get_pubmed_metadata sumNet (search_pubmed pubmedResp)) ++ bp ++ mp))⟩, ?_⟩
  simp [search_all, hbp, hmp]

theorem search_all_no_raise_amended_witness :
    ∃ r, search_all (some []) (fun _ _ => none) (fun _ _ => none) (fun _ _ => none) 1 =
      some (Except.ok r) := by
  have h := (search_all_no_raise_amended (some []) (fun _ _ => none)
    (fun _ _ => none) (fun _ _ => none) 0
    (fun c a b h => Option.noConfusion h) (fun c a b h => Option.noConfusion h)
    (fun c a b h => Option.noConfusion h) (fun c a b h => Option.noConfusion h)).2.2
  simpa using h

def badBody : PageBody := ⟨[pageItemX], some []⟩

def badNet : PreprintNet := fun _ _ => some badBody

/-- Claim C5, counterexample: a decoded page whose `messages` array is empty
makes `messages[0]` raise `IndexError` outside every `try` block: the
preprint client and the whole `search_all` run end in an uncaught
exception instead of a result tuple. -/
theorem search_all_raises_cex :
    _search_preprint_server badNet "biorxiv" 1 = some (Except.error ()) ∧
    search_all (some []) (fun _ _ => none) badNet badNet 1 = some (Except.error ()) :=
  ⟨rfl, rfl⟩

/-! ## Preprint item-loop lemmas -/

theorem processItems_acc_mem (server : String) :
    ∀ (items : List PreprintItem) (seen : List String) (acc : List Paper) (x : Paper),
      x ∈ acc → x ∈ (processItems server items seen acc).1 := by
  intro items
  induction items with
  | nil => intro seen acc x hx; exact hx
  | cons it rest ih =>
    intro seen acc x hx
    cases hrel : _is_pkd_relevant it.title it.abstract with
    | false =>
      simp only [processItems, hrel, Bool.false_eq_true, if_false]
      exact ih _ _ _ hx
    | true =>
      simp only [processItems, hrel, if_true]
      by_cases hsup : it.doi ≠ "" ∧ it.doi ∈ seen
      · rw [if_pos hsup]; exact ih _ _ _ hx
      · rw [if_neg hsup]; exact ih _ _ _ (List.mem_append_left _ hx)

theorem processItems_mem (server : String) :
    ∀ (items : List PreprintItem) (seen : List String) (acc : List Paper) (p : Paper),
      p ∈ (processItems server items seen acc).1 →
      p ∈ acc ∨ ∃ it, it ∈ items ∧ p = mkPreprintPaper server it ∧
        _is_pkd_relevant it.title it.abstract = true := by
  intro items
  induction items with
  | nil => intro seen acc p hp; exact Or.inl hp
  | cons it rest ih =>
    intro seen acc p hp
    cases hrel : _is_pkd_relevant it.title it.abstract with
    | false =>
      simp only [processItems, hrel, Bool.false_eq_true, if_false] at hp
      rcases ih _ _ _ hp with h | ⟨it', hmem, heq, hrel'⟩
      · exact Or.inl h
      · exact Or.inr ⟨it', List.mem_cons_of_mem _ hmem, heq, hrel'⟩
    | true =>
      simp only [processItems, hrel, if_true] at hp
      by_cases hsup : it.doi ≠ "" ∧ it.doi ∈ seen
      · rw [if_pos hsup] at hp
        rcases ih _ _ _ hp with h | ⟨it', hmem, heq, hrel'⟩
        · exact Or.inl h
        · exact Or.inr ⟨it', List.mem_cons_of_mem _ hmem, heq, hrel'⟩
      · rw [if_neg hsup] at hp
        rcases ih _ _ _ hp with h | ⟨it', hmem, heq, hrel'⟩
        · rcases List.mem_append.mp h with h' | h'
          · exact Or.inl h'
          · have hpe : p = mkPreprintPaper server it := by simpa using h'
            exact Or.inr ⟨it, List.mem_cons_self _ _, hpe, hrel⟩
        · exact Or.inr ⟨it', List.mem_cons_of_mem _ hmem, heq, hrel'⟩

theorem processItems_empty_doi_mem (server : String) :
    ∀ (items : List PreprintItem) (seen : List String) (acc : List Paper)
      (it : PreprintItem), it ∈ items →
      _is_pkd_relevant it.title it.abstract = true → it.doi = "" →
      mkPreprintPaper server it ∈ (processItems server items seen acc).1 := by
  intro items
  induction items with
  | nil => intro seen acc it h; simp at h
  | cons hd rest ih =>
    intro seen acc it hmem hrel hdoi
    rcases List.mem_cons.mp hmem with rfl | hmem'
    · simp only [processItems, hrel, if_true]
      have hsup : ¬(it.doi ≠ "" ∧ it.doi ∈ seen) := fun h => h.1 hdoi
      rw [if_neg hsup]
      rw [if_neg (fun h : it.doi ≠ "" => h hdoi)]
      exact processItems_acc_mem server rest seen _ _
        (List.mem_append_right _ (List.mem_singleton_self _))
    · cases hrel2 : _is_pkd_relevant hd.title hd.abstract with
      | false =>
        simp only [processItems, hrel2, Bool.false_eq_true, if_false]
        exact ih _ _ it hmem' hrel hdoi
      | true =>
        simp only [processItems, hrel2, if_true]
        by_cases hsup : hd.doi ≠ "" ∧ hd.doi ∈ seen
        · rw [if_pos hsup]; exact ih _ _ it hmem' hrel hdoi
        · rw [if_neg hsup]; exact ih _ _ it hmem' hrel hdoi

theorem processItems_pair_distinct (server : String) (i1 i2 : PreprintItem)
    (h1 : _is_pkd_relevant i1.title i1.abstract = true)
    (h2 : _is_pkd_relevant i2.title i2.abstract = true)
    (hne : i2.doi ≠ i1.doi) :
    (processItems server [i1, i2] [] []).1 =
      [mkPreprintPaper server i1, mkPreprintPaper server i2] := by
  have hs1 : ¬(i1.doi ≠ "" ∧ i1.doi ∈ ([] : List String)) := by simp
  simp only [processItems, h1, h2, if_true]
  rw [if_neg hs1]
  by_cases hd1 : i1.doi ≠ ""
  · rw [if_pos hd1]
    have hs2 : ¬(i2.doi ≠ "" ∧ i2.doi ∈ [i1.doi]) := by
      rintro ⟨hne2, hm⟩
      exact hne (by simpa using hm)
    rw [if_neg hs2]
    by_cases hd2 : i2.doi ≠ ""
    · rw [if_pos hd2]; rfl
    · rw [if_neg hd2]; rfl
  · rw [if_neg hd1]
    have hs2 : ¬(i2.doi ≠ "" ∧ i2.doi ∈ ([] : List String)) := by simp
    rw [if_neg hs2]
    by_cases hd2 : i2.doi ≠ ""
    · rw [if_pos hd2]; rfl
    · rw [if_neg hd2]; rfl

theorem processItems_pair_same_doi (server : String) (i1 i2 : PreprintItem)
    (h1 : _is_pkd_relevant i1.title i1.abstract = true)
    (h2 : _is_pkd_relevant i2.title i2.abstract = true)
    (heq : i2.doi = i1.doi) (hne : i1.doi ≠ "") :
    (processItems server [i1, i2] [] []).1 = [mkPreprintPaper server i1] := by
  have hs1 : ¬(i1.doi ≠ "" ∧ i1.doi ∈ ([] : List String)) := by simp
  simp only [processItems, h1, h2, if_true]
  rw [if_neg hs1, if_pos hne]
  have hs2 : i2.doi ≠ "" ∧ i2.doi ∈ [i1.doi] := ⟨heq ▸ hne, by simp [heq]⟩
  rw [if_pos hs2]
  rfl

/-- Claim C10: the in-source seen-DOI suppression compares DOI strings
verbatim: a relevant item with an empty DOI is never suppressed by this
pass; two relevant items whose DOIs differ at all (even only in letter
case) are both emitted; and a relevant item whose DOI exactly equals the
earlier emitted item's non-empty DOI is dropped. -/
theorem in_source_doi_suppression_verbatim :
    (∀ (server : String) (items : List PreprintItem) (seen : List String)
        (acc : List Paper) (it : PreprintItem), it ∈ items →
      _is_pkd_relevant it.title it.abstract = true → it.doi = "" →
      mkPreprintPaper server it ∈ (processItems server items seen acc).1) ∧
    (∀ (server : String) (i1 i2 : PreprintItem),
      _is_pkd_relevant i1.title i1.abstract = true →
      _is_pkd_relevant i2.title i2.abstract = true → i2.doi ≠ i1.doi →
      (processItems server [i1, i2] [] []).1 =
        [mkPreprintPaper server i1, mkPreprintPaper server i2]) ∧
    (∀ (server : String) (i1 i2 : PreprintItem),
      _is_pkd_relevant i1.title i1.abstract = true →
      _is_pkd_relevant i2.title i2.abstract = true → i2.doi = i1.doi → i1.doi ≠ "" →
      (processItems server [i1, i2] [] []).1 = [mkPreprintPaper server i1]) :=
  ⟨fun server items seen acc it => processItems_empty_doi_mem server items seen acc it,
   fun server i1 i2 => processItems_pair_distinct server i1 i2,
   fun server i1 i2 => processItems_pair_same_doi server i1 i2⟩

theorem in_source_doi_suppression_verbatim_witness :
    (processItems "biorxiv"
        [PreprintItem.mk "pkd1 A" "" "10.1/ABC" "" "",
         PreprintItem.mk "pkd1 B" "" "10.1/abc" "" ""] [] []).1 =
      [mkPreprintPaper "biorxiv" (PreprintItem.mk "pkd1 A" "" "10.1/ABC" "" ""),
       mkPreprintPaper "biorxiv" (PreprintItem.mk "pkd1 B" "" "10.1/abc" "" "")] :=
  in_source_doi_suppression_verbatim.2.1 "biorxiv"
    (PreprintItem.mk "pkd1 A" "" "10.1/ABC" "" "")
    (PreprintItem.mk "pkd1 B" "" "10.1/abc" "" "")
    (by decide) (by decide) (by decide)

/-! ## PubMed batch lemmas -/

theorem papersOfBatch_mem (batch : List String) (res : SummaryResult) (p : Paper)
    (hp : p ∈ papersOfBatch batch res) :
    ∃ pmid art, pmid ∈ batch ∧ res.lookup pmid = some art ∧
      p = mkPubmedPaper pmid art := by
  simp only [papersOfBatch, List.mem_filterMap] at hp
  obtain ⟨pmid, hpm, hsome⟩ := hp
  rcases hopt : res.lookup pmid with _ | art
  · rw [hopt] at hsome; simp at hsome
  · rw [hopt] at hsome
    simp only [Option.map_some', Option.some.injEq] at hsome
    exact ⟨pmid, art, hpm, hopt, hsome.symm⟩

/-- Claim C8, counterexample: a preprint item with an empty title whose
abstract matches a keyword passes the Keyword Matcher and is normalized
into a Paper whose title is empty — the Normalizer does not guarantee
non-empty titles. -/
theorem normalizer_empty_title_cex :
    _is_pkd_relevant "" "pkd1" = true ∧
    ((processItems "biorxiv" [PreprintItem.mk "" "pkd1" "" "" ""] [] []).1.map
        Paper.title) = [""] := by
  exact ⟨by decide, by decide⟩

/-- Claim C8, amended: every Paper produced by the Normalizer carries the
source entry's title verbatim (PubMed summary entries via `mkPubmedPaper`,
preprint items that passed the Keyword Matcher via `mkPreprintPaper`), so
its title is non-empty exactly when the source entry's title is; emptiness
is not prevented. -/
theorem normalizer_title_verbatim :
    (∀ pmid art, (mkPubmedPaper pmid art).title = art.title) ∧
    (∀ server it, (mkPreprintPaper server it).title = it.title) ∧
    (∀ (server : String) (items : List PreprintItem) (seen : List String)
        (acc : List Paper) (p : Paper), p ∈ (processItems server items seen acc).1 →
      p ∈ acc ∨ ∃ it, it ∈ items ∧ p = mkPreprintPaper server it ∧
        _is_pkd_relevant it.title it.abstract = true) ∧
    (∀ (batch : List String) (res : SummaryResult) (p : Paper),
      p ∈ papersOfBatch batch res →
      ∃ pmid art, pmid ∈ batch ∧ res.lookup pmid = some art ∧
        p = mkPubmedPaper pmid art) :=
  ⟨fun _ _ => rfl, fun _ _ => rfl,
   fun server items seen acc p => processItems_mem server items seen acc p,
   fun batch res p => papersOfBatch_mem batch res p⟩

theorem normalizer_title_verbatim_witness :
    ∃ pmid art, pmid ∈ ["1"] ∧
      ([("1", PubmedArticle.mk "T" [] "" "" [])] : SummaryResult).lookup pmid =
        some art ∧
      mkPubmedPaper "1" (PubmedArticle.mk "T" [] "" "" []) =
        mkPubmedPaper pmid art :=
  normalizer_title_verbatim.2.2.2 ["1"] [("1", PubmedArticle.mk "T" [] "" "" [])]
    (mkPubmedPaper "1" (PubmedArticle.mk "T" [] "" "" [])) (by decide)
